import Mathlib

/-!
Shallow embedding of `src/ui/src/App.js` from the lang-translation repository.

The component is pure view glue: a sentence-splitting helper built on the
JavaScript regular expression `/[^.!?]+[.!?]*/g`, and three event handlers
(`handleSubmit`, `handleGenerateTree`, `handleDownloadResults`) that update
React state and issue HTTP requests.  We model React state as an explicit
record, each handler as a pure function from the current state and the
(externally supplied) HTTP outcome to the new state together with the list
of requests the handler issued, and the file download as the produced
(file name, file content) pair.
-/

namespace LangTranslation

/-- A character matched by the regex character class `[.!?]` — the
sentence-ending delimiters of `splitIntoSentences`. -/
def isDelim (c : Char) : Bool := c == '.' || c == '!' || c == '?'

/-- The complement class `[^.!?]`. -/
def notDelim (c : Char) : Bool := !isDelim c

/-- The scan loop of `text.match(/[^.!?]+[.!?]*/g)`: starting at the current
position, the pattern `[^.!?]+[.!?]*` either fails (current character is a
delimiter, so the engine advances one character) or greedily matches one or
more non-delimiters followed by zero or more delimiters, emits that match and
continues after it.  `fuel` bounds the number of scan steps; the scan position
advances by at least one character per step, so `fuel = length` is enough.
When the regex never matches, JavaScript `match` returns `null`, which the
source coerces to the empty array via `|| []`; here that is the `[]` result. -/
def matchLoop : Nat → List Char → List (List Char)
  | 0, _ => []
  | _ + 1, [] => []
  | fuel + 1, c :: cs =>
    if isDelim c then
      matchLoop fuel cs
    else
      (c :: (List.takeWhile notDelim cs ++
             List.takeWhile isDelim (List.dropWhile notDelim cs)))
        :: matchLoop fuel (List.dropWhile isDelim (List.dropWhile notDelim cs))

/-- `splitIntoSentences` from `src/ui/src/App.js`:
`text.match(/[^.!?]+[.!?]*/g) || []`. -/
def splitIntoSentences (text : String) : List String :=
  (matchLoop text.data.length text.data).map String.mk

/-- A `WordInfo` entry of a server analysis: `{word, freq, gram_info}`. -/
structure WordInfo where
  word : String
  freq : Nat
  gram_info : String
deriving DecidableEq

/-- One analysis block of the translation response:
`{ words_count, words_info }`. -/
structure TextAnalysis where
  words_count : Nat
  words_info : List WordInfo
deriving DecidableEq

/-- The JSON body returned by `POST /api/v0/translation`. -/
structure TranslationResult where
  original_text : String
  original_text_analysis : TextAnalysis
  translated_text : String
  translated_text_analysis : TextAnalysis
deriving DecidableEq

/-- Failure of an HTTP request as surfaced by axios: either a network error
or a response with a non-2xx status code.  Both reach the `catch` block. -/
inductive ApiError where
  | network
  | status (code : Nat)
deriving DecidableEq

/-- The axios `responseType` of a request: the default JSON decoding, or
`"arraybuffer"` as passed for the tree request. -/
inductive RespType where
  | json
  | arraybuffer
deriving DecidableEq

/-- An HTTP POST issued by a handler: target URL, the `text` field of the
JSON body, and how the response body is to be decoded. -/
structure Request where
  url : String
  textBody : String
  respType : RespType
deriving DecidableEq

/-- An object URL as produced by `URL.createObjectURL` on a blob; modelled by
the bytes of the underlying blob. -/
structure ObjectURL where
  blobBytes : List Nat
deriving DecidableEq

/-- `URL.createObjectURL(new Blob([bytes]))`. -/
def createObjectURL (bytes : List Nat) : ObjectURL := ⟨bytes⟩

/-- The React state of the `App` component: one field per `useState` hook. -/
structure AppState where
  inputText : String
  results : Option TranslationResult
  syntaxTree : Option ObjectURL
  selectedSentence : String
  sentences : List String
  loading : Bool
  treeLoading : Bool
deriving DecidableEq

/-- The state updates `handleSubmit` performs before awaiting the POST:
`setLoading(true); setResults(null); setSyntaxTree(null)`. -/
def handleSubmitPre (s : AppState) : AppState :=
  { s with loading := true, results := none, syntaxTree := none }

/-- `handleSubmit` from `src/ui/src/App.js`.  The DOM event only receives
`preventDefault`, and the `catch` block only logs, so neither affects the
modelled state.  `resp` is the outcome of the awaited POST; the function
returns the final state after the `finally` block together with the list of
requests the invocation issued. -/
def handleSubmit (s : AppState) (resp : Except ApiError TranslationResult) :
    AppState × List Request :=
  let s1 := handleSubmitPre s
  let req : Request :=
    { url := "http://localhost:8000/api/v0/translation",
      textBody := s.inputText,
      respType := RespType.json }
  let s2 :=
    match resp with
    | Except.ok data =>
        { s1 with results := some data,
                  sentences := splitIntoSentences s.inputText }
    | Except.error _ => s1
  ({ s2 with loading := false }, [req])

/-- `handleGenerateTree` from `src/ui/src/App.js`.  `if (!selectedSentence)
return;` guards the body (the empty string is the only falsy value the state
can hold); on success the arraybuffer response is wrapped in a blob and an
object URL is stored; the `catch` block only logs; `finally` resets
`treeLoading`. -/
def handleGenerateTree (s : AppState) (resp : Except ApiError (List Nat)) :
    AppState × List Request :=
  if s.selectedSentence = "" then (s, [])
  else
    let s1 := { s with treeLoading := true, syntaxTree := none }
    let req : Request :=
      { url := "http://localhost:8000/api/v0/tree",
        textBody := s.selectedSentence,
        respType := RespType.arraybuffer }
    let s2 :=
      match resp with
      | Except.ok bytes => { s1 with syntaxTree := some (createObjectURL bytes) }
      | Except.error _ => s1
    ({ s2 with treeLoading := false }, [req])

/-- One line of the downloaded file, as appended by the `forEach` body:
`  - Word: ${info.word}, Frequency: ${info.freq}, Grammatical Info: ${info.gram_info}\n`. -/
def wordInfoLine (info : WordInfo) : String :=
  "  - Word: " ++ info.word ++ ", Frequency: " ++ toString info.freq ++
    ", Grammatical Info: " ++ info.gram_info ++ "\n"

/-- The text appended by `words_info.forEach(...)`: one `wordInfoLine` per
entry, in order. -/
def wordsInfoLines : List WordInfo → String
  | [] => ""
  | info :: rest => wordInfoLine info ++ wordsInfoLines rest

/-- The `fileContent` string built by `handleDownloadResults`, by the
successive `+=` statements of the source. -/
def downloadFileContent (r : TranslationResult) : String :=
  "Translation Results\n\n" ++
  "\nOriginal Text:\n" ++
  (r.original_text ++ "\n\n") ++
  "Original Text Analysis:\n" ++
  ("Words Count: " ++ toString r.original_text_analysis.words_count ++ "\n") ++
  "Words Info:\n" ++
  wordsInfoLines r.original_text_analysis.words_info ++
  "\nTranslated Text:\n" ++
  (r.translated_text ++ "\n\n") ++
  "Translated Text Analysis:\n" ++
  ("Words Count: " ++ toString r.translated_text_analysis.words_count ++ "\n") ++
  "Words Info:\n" ++
  wordsInfoLines r.translated_text_analysis.words_info

/-- `handleDownloadResults` from `src/ui/src/App.js`: `if (!results) return;`
otherwise a text file named `translation_results.txt` with `fileContent` as
its body is offered for download.  Modelled as the optional
(file name, file content) pair. -/
def handleDownloadResults (s : AppState) : Option (String × String) :=
  match s.results with
  | none => none
  | some r => some ("translation_results.txt", downloadFileContent r)

/-- `sub` occurs contiguously inside `s`. -/
def strContains (s sub : String) : Prop :=
  ∃ u v : List Char, s.data = u ++ sub.data ++ v

/-- A concrete analysis block, used to instantiate theorems with hypotheses
at a concrete state. -/
def sampleAnalysis : TextAnalysis :=
  { words_count := 1,
    words_info := [{ word := "hi", freq := 1, gram_info := "intj" }] }

/-- A concrete translation response. -/
def sampleResult : TranslationResult :=
  { original_text := "hi",
    original_text_analysis := sampleAnalysis,
    translated_text := "salut",
    translated_text_analysis := sampleAnalysis }

/-- A concrete component state with a stored result and a selected sentence. -/
def sampleState : AppState :=
  { inputText := "hi",
    results := some sampleResult,
    syntaxTree := none,
    selectedSentence := "hi",
    sentences := [],
    loading := false,
    treeLoading := false }

theorem length_dropWhile_le (p : Char → Bool) :
    ∀ l : List Char, (List.dropWhile p l).length ≤ l.length := by
  intro l
  induction l with
  | nil => simp [List.dropWhile]
  | cons c cs ih =>
    simp only [List.dropWhile]
    cases hp : p c
    · simp
    · simp only [List.length_cons]
      exact Nat.le_succ_of_le ih

theorem dropWhile_dropWhile_self (p : Char → Bool) :
    ∀ l : List Char, List.dropWhile p (List.dropWhile p l) = List.dropWhile p l := by
  intro l
  induction l with
  | nil => rfl
  | cons c cs ih =>
    simp only [List.dropWhile]
    cases hc : p c with
    | true => simpa using ih
    | false => simp [List.dropWhile, hc]

theorem data_append (a b : String) : (a ++ b).data = a.data ++ b.data := by
  cases a; cases b; rfl

theorem data_mk (l : List Char) : (String.mk l).data = l := rfl

theorem foldl_append_mk (l : List (List Char)) :
    ∀ s : String, List.foldl (· ++ ·) s (l.map String.mk) = String.mk (s.data ++ l.flatten) := by
  induction l with
  | nil => intro s; cases s; simp
  | cons a as ih =>
    intro s
    simp only [List.map, List.foldl, List.flatten_cons]
    rw [ih (s ++ String.mk a), data_append, data_mk]
    simp [List.append_assoc]

theorem join_map_mk (l : List (List Char)) :
    String.join (l.map String.mk) = String.mk l.flatten := by
  show List.foldl (· ++ ·) "" (l.map String.mk) = String.mk l.flatten
  rw [foldl_append_mk]
  rfl

/-- Concatenating the matches of the scan loop restores the scanned text,
except for the delimiters the scan skipped at positions where the pattern
failed — and those are exactly a leading run of delimiters. -/
theorem matchLoop_flatten :
    ∀ (fuel : Nat) (l : List Char), l.length ≤ fuel →
      (matchLoop fuel l).flatten = List.dropWhile isDelim l := by
  intro fuel
  induction fuel with
  | zero =>
    intro l hl
    have : l = [] := List.eq_nil_of_length_eq_zero (Nat.le_zero.mp hl)
    subst this
    rfl
  | succ fuel ih =>
    intro l hl
    cases l with
    | nil => rfl
    | cons c cs =>
      have hcs : cs.length ≤ fuel := by
        simpa [Nat.succ_le_succ_iff] using hl
      cases hc : isDelim c with
      | true =>
        simp only [matchLoop, hc, if_pos]
        rw [ih cs hcs]
        simp [List.dropWhile, hc]
      | false =>
        simp only [matchLoop, hc, Bool.false_eq_true, if_neg, not_false_iff]
        have hlen2 :
            (List.dropWhile isDelim (List.dropWhile notDelim cs)).length ≤ fuel := by
          calc (List.dropWhile isDelim (List.dropWhile notDelim cs)).length
              ≤ (List.dropWhile notDelim cs).length := length_dropWhile_le _ _
            _ ≤ cs.length := length_dropWhile_le _ _
            _ ≤ fuel := hcs
        simp only [List.flatten_cons]
        rw [ih _ hlen2, dropWhile_dropWhile_self]
        simp only [List.dropWhile, hc]
        simp only [List.cons_append, List.append_assoc,
          List.takeWhile_append_dropWhile]

/-- Every match emitted by the scan loop is a contiguous piece of the scanned
text of the shape `[^.!?]+[.!?]*`. -/
theorem matchLoop_shape :
    ∀ (fuel : Nat) (l : List Char), l.length ≤ fuel →
      ∀ g ∈ matchLoop fuel l,
        (∃ u v : List Char, l = u ++ g ++ v) ∧
        ∃ a b : List Char, g = a ++ b ∧ a ≠ [] ∧
          (∀ c ∈ a, isDelim c = false) ∧ (∀ c ∈ b, isDelim c = true) := by
  intro fuel
  induction fuel with
  | zero =>
    intro l _ g hg
    simp [matchLoop] at hg
  | succ fuel ih =>
    intro l hl g hg
    cases l with
    | nil => simp [matchLoop] at hg
    | cons c cs =>
      have hcs : cs.length ≤ fuel := by
        simpa [Nat.succ_le_succ_iff] using hl
      cases hc : isDelim c with
      | true =>
        simp only [matchLoop, hc, if_pos] at hg
        obtain ⟨⟨u, v, huv⟩, hshape⟩ := ih cs hcs g hg
        exact ⟨⟨c :: u, v, by simp [huv]⟩, hshape⟩
      | false =>
        simp only [matchLoop, hc, Bool.false_eq_true, if_neg, not_false_iff,
          List.mem_cons] at hg
        cases hg with
        | inl hg =>
          subst hg
          constructor
          · refine ⟨[], List.dropWhile isDelim (List.dropWhile notDelim cs), ?_⟩
            simp only [List.nil_append, List.cons_append, List.cons.injEq, true_and,
              List.append_assoc, List.takeWhile_append_dropWhile]
          · refine ⟨c :: List.takeWhile notDelim cs,
              List.takeWhile isDelim (List.dropWhile notDelim cs), by simp, by simp, ?_, ?_⟩
            · intro x hx
              cases List.mem_cons.mp hx with
              | inl h => subst h; exact hc
              | inr h =>
                have := List.mem_takeWhile_imp h
                simpa [notDelim] using this
            · intro x hx
              exact List.mem_takeWhile_imp hx
        | inr hg =>
          have hlen2 :
              (List.dropWhile isDelim (List.dropWhile notDelim cs)).length ≤ fuel := by
            calc (List.dropWhile isDelim (List.dropWhile notDelim cs)).length
                ≤ (List.dropWhile notDelim cs).length := length_dropWhile_le _ _
              _ ≤ cs.length := length_dropWhile_le _ _
              _ ≤ fuel := hcs
          obtain ⟨⟨u, v, huv⟩, hshape⟩ := ih _ hlen2 g hg
          refine ⟨⟨c :: (List.takeWhile notDelim cs ++
            List.takeWhile isDelim (List.dropWhile notDelim cs)) ++ u, v, ?_⟩, hshape⟩
          have hdecomp : cs = List.takeWhile notDelim cs ++
              (List.takeWhile isDelim (List.dropWhile notDelim cs) ++
                List.dropWhile isDelim (List.dropWhile notDelim cs)) := by
            rw [List.takeWhile_append_dropWhile, List.takeWhile_append_dropWhile]
          conv_lhs => rw [hdecomp, huv]
          simp

/-- On text made of delimiters only, the pattern fails at every position and
the scan emits nothing. -/
theorem matchLoop_all_delims :
    ∀ (fuel : Nat) (l : List Char), (∀ c ∈ l, isDelim c = true) →
      matchLoop fuel l = [] := by
  intro fuel
  induction fuel with
  | zero => intro l _; rfl
  | succ fuel ih =>
    intro l hall
    cases l with
    | nil => rfl
    | cons c cs =>
      have hc : isDelim c = true := hall c (List.mem_cons_self c cs)
      simp only [matchLoop, hc, if_pos]
      exact ih cs fun x hx => hall x (List.mem_cons_of_mem c hx)

theorem strContains_self (x : String) : strContains x x :=
  ⟨[], [], by simp⟩

theorem strContains_left {a : String} (b : String) {x : String}
    (h : strContains a x) : strContains (a ++ b) x := by
  obtain ⟨u, v, huv⟩ := h
  exact ⟨u, v ++ b.data, by rw [data_append, huv]; simp⟩

theorem strContains_right (a : String) {b x : String}
    (h : strContains b x) : strContains (a ++ b) x := by
  obtain ⟨u, v, huv⟩ := h
  exact ⟨a.data ++ u, v, by rw [data_append, huv]; simp⟩

theorem wordsInfoLines_contains {info : WordInfo} :
    ∀ {l : List WordInfo}, info ∈ l →
      strContains (wordsInfoLines l) (wordInfoLine info) := by
  intro l
  induction l with
  | nil => intro h; simp at h
  | cons i rest ih =>
    intro h
    cases List.mem_cons.mp h with
    | inl h =>
      subst h
      exact strContains_left _ (strContains_self _)
    | inr h =>
      exact strContains_right _ (ih h)

/-- Claim C1: `splitIntoSentences` applied to the string
`"Hello world. How are you? Fine!"` returns exactly the three-element list
`["Hello world.", " How are you?", " Fine!"]` in that order. -/
theorem splitIntoSentences_hello_example :
    splitIntoSentences "Hello world. How are you? Fine!" =
      ["Hello world.", " How are you?", " Fine!"] := by decide

/-- Claim C2, counterexample: on the input `".a"` the regex scan skips the
leading delimiter, `splitIntoSentences ".a" = ["a"]`, so concatenating the
elements does not restore the input. -/
theorem splitIntoSentences_concat_counterexample :
    splitIntoSentences ".a" = ["a"] ∧
    ¬ (String.join (splitIntoSentences ".a") = ".a") := by decide

/-- Claim C2, amended: concatenating the elements of
`splitIntoSentences text` in order yields `text` with its leading run of
`'.'`, `'!'`, `'?'` characters removed; in particular the input is restored
unchanged whenever it does not begin with a sentence-ending delimiter. -/
theorem splitIntoSentences_concat (text : String) :
    String.join (splitIntoSentences text) =
      String.mk (List.dropWhile isDelim text.data) := by
  unfold splitIntoSentences
  rw [join_map_mk, matchLoop_flatten text.data.length text.data (le_refl _)]

/-- Claim C3: when the POST of `handleSubmit` fails, the final state has
`results = none` and `loading = false`, and equals the pre-request state with
the loading flag reset — nothing else is set from the failed response. -/
theorem handleSubmit_failure (s : AppState) (e : ApiError) :
    (handleSubmit s (Except.error e)).1.results = none ∧
    (handleSubmit s (Except.error e)).1.loading = false ∧
    (handleSubmit s (Except.error e)).1 =
      { s with loading := false, results := none, syntaxTree := none } :=
  ⟨rfl, rfl, rfl⟩

/-- Claim C4: every element of `splitIntoSentences text` is a contiguous
substring of `text` made of one or more characters outside `.`, `!`, `?`
followed by zero or more characters drawn from `.`, `!`, `?`. -/
theorem splitIntoSentences_element_shape (text sent : String)
    (hmem : sent ∈ splitIntoSentences text) :
    (∃ u v : List Char, text.data = u ++ sent.data ++ v) ∧
    ∃ a b : List Char, sent.data = a ++ b ∧ a ≠ [] ∧
      (∀ c ∈ a, isDelim c = false) ∧ (∀ c ∈ b, isDelim c = true) := by
  unfold splitIntoSentences at hmem
  obtain ⟨g, hg, rfl⟩ := List.mem_map.mp hmem
  have h := matchLoop_shape text.data.length text.data (le_refl _) g hg
  simpa [data_mk] using h

/-- Witness for claim C4, at `text = "ab.c"` and `sent = "ab."`. -/
theorem splitIntoSentences_element_shape_witness :
    ("ab." ∈ splitIntoSentences "ab.c") ∧
    ((∃ u v : List Char, "ab.c".data = u ++ "ab.".data ++ v) ∧
     ∃ a b : List Char, "ab.".data = a ++ b ∧ a ≠ [] ∧
       (∀ c ∈ a, isDelim c = false) ∧ (∀ c ∈ b, isDelim c = true)) :=
  ⟨by decide, splitIntoSentences_element_shape "ab.c" "ab." (by decide)⟩

/-- Claim C5: each invocation of `handleSubmit` issues exactly one POST, to
the translation endpoint with the current `inputText` as the body text, and
each invocation of `handleGenerateTree` with a non-empty `selectedSentence`
issues exactly one POST, to the tree endpoint with `selectedSentence` as the
body text and the response decoded as an arraybuffer; no invocation of either
handler ever issues more than one request. -/
theorem handlers_issue_single_request (s : AppState)
    (respT : Except ApiError (List Nat))
    (h : s.selectedSentence ≠ "") :
    (∀ (s2 : AppState) (r2 : Except ApiError TranslationResult),
      (handleSubmit s2 r2).2 =
        [{ url := "http://localhost:8000/api/v0/translation",
           textBody := s2.inputText, respType := RespType.json }]) ∧
    (handleGenerateTree s respT).2 =
      [{ url := "http://localhost:8000/api/v0/tree",
         textBody := s.selectedSentence, respType := RespType.arraybuffer }] ∧
    (∀ (s2 : AppState) (r2 : Except ApiError (List Nat)),
      ((handleGenerateTree s2 r2).2).length ≤ 1) := by
  refine ⟨fun s2 r2 => rfl, ?_, ?_⟩
  · unfold handleGenerateTree
    rw [if_neg h]
  · intro s2 r2
    unfold handleGenerateTree
    split
    · exact Nat.zero_le 1
    · exact le_refl 1

/-- Witness for claim C5, at `sampleState` (whose selected sentence is
`"hi"`) and failing responses. -/
theorem handlers_issue_single_request_witness :
    sampleState.selectedSentence ≠ "" ∧
    ((∀ (s2 : AppState) (r2 : Except ApiError TranslationResult),
       (handleSubmit s2 r2).2 =
         [{ url := "http://localhost:8000/api/v0/translation",
            textBody := s2.inputText, respType := RespType.json }]) ∧
     (handleGenerateTree sampleState (Except.error ApiError.network)).2 =
      [{ url := "http://localhost:8000/api/v0/tree",
         textBody := sampleState.selectedSentence,
         respType := RespType.arraybuffer }] ∧
     (∀ (s2 : AppState) (r2 : Except ApiError (List Nat)),
       ((handleGenerateTree s2 r2).2).length ≤ 1)) :=
  ⟨by decide,
   handlers_issue_single_request sampleState
     (Except.error ApiError.network) (by decide)⟩

/-- Claim C6: `handleSubmit` clears `results` and `syntaxTree` before the
request is sent, and on a successful response sets `results` to exactly the
response data and `sentences` to `splitIntoSentences inputText`. -/
theorem handleSubmit_success (s : AppState) (data : TranslationResult) :
    (handleSubmitPre s).results = none ∧
    (handleSubmitPre s).syntaxTree = none ∧
    (handleSubmit s (Except.ok data)).1.results = some data ∧
    (handleSubmit s (Except.ok data)).1.sentences =
      splitIntoSentences s.inputText :=
  ⟨rfl, rfl, rfl, rfl⟩

/-- Claim C7: with a stored result, `handleDownloadResults` produces a file
named `translation_results.txt` whose content contains the original text, the
translated text, both word counts and one line per `words_info` entry of both
analyses (each line giving the entry's word, frequency and grammatical info),
with the original-text analysis serialized before the translated-text one. -/
theorem handleDownloadResults_spec (s : AppState) (r : TranslationResult)
    (h : s.results = some r) :
    handleDownloadResults s =
      some ("translation_results.txt", downloadFileContent r) ∧
    strContains (downloadFileContent r) r.original_text ∧
    strContains (downloadFileContent r) r.translated_text ∧
    strContains (downloadFileContent r)
      (toString r.original_text_analysis.words_count) ∧
    strContains (downloadFileContent r)
      (toString r.translated_text_analysis.words_count) ∧
    (∀ info ∈ r.original_text_analysis.words_info,
      strContains (downloadFileContent r) (wordInfoLine info)) ∧
    (∀ info ∈ r.translated_text_analysis.words_info,
      strContains (downloadFileContent r) (wordInfoLine info)) ∧
    ∃ u v : String, downloadFileContent r =
      u ++ (wordsInfoLines r.original_text_analysis.words_info ++
        (v ++ wordsInfoLines r.translated_text_analysis.words_info)) := by
  refine ⟨by simp [handleDownloadResults, h], ?_, ?_, ?_, ?_, ?_, ?_, ?_⟩
  · unfold downloadFileContent
    exact strContains_left _ (strContains_left _ (strContains_left _
      (strContains_left _ (strContains_left _ (strContains_left _
      (strContains_left _ (strContains_left _ (strContains_left _
      (strContains_left _ (strContains_right _
      (strContains_left _ (strContains_self _))))))))))))
  · unfold downloadFileContent
    exact strContains_left _ (strContains_left _ (strContains_left _
      (strContains_left _ (strContains_right _
      (strContains_left _ (strContains_self _))))))
  · unfold downloadFileContent
    exact strContains_left _ (strContains_left _ (strContains_left _
      (strContains_left _ (strContains_left _ (strContains_left _
      (strContains_left _ (strContains_left _ (strContains_right _
      (strContains_left _ (strContains_right _ (strContains_self _)))))))))))
  · unfold downloadFileContent
    exact strContains_left _ (strContains_left _ (strContains_right _
      (strContains_left _ (strContains_right _ (strContains_self _)))))
  · intro info hinfo
    unfold downloadFileContent
    exact strContains_left _ (strContains_left _ (strContains_left _
      (strContains_left _ (strContains_left _ (strContains_left _
      (strContains_right _ (wordsInfoLines_contains hinfo)))))))
  · intro info hinfo
    unfold downloadFileContent
    exact strContains_right _ (wordsInfoLines_contains hinfo)
  · refine ⟨"Translation Results\n\n" ++ "\nOriginal Text:\n" ++
      (r.original_text ++ "\n\n") ++ "Original Text Analysis:\n" ++
      ("Words Count: " ++ toString r.original_text_analysis.words_count ++ "\n") ++
      "Words Info:\n",
      "\nTranslated Text:\n" ++ (r.translated_text ++ "\n\n") ++
      "Translated Text Analysis:\n" ++
      ("Words Count: " ++ toString r.translated_text_analysis.words_count ++ "\n") ++
      "Words Info:\n", ?_⟩
    simp only [downloadFileContent, String.append_assoc]

/-- Witness for claim C7, at `sampleState` (which stores `sampleResult`). -/
theorem handleDownloadResults_spec_witness :
    sampleState.results = some sampleResult ∧
    (handleDownloadResults sampleState =
      some ("translation_results.txt", downloadFileContent sampleResult) ∧
    strContains (downloadFileContent sampleResult) sampleResult.original_text ∧
    strContains (downloadFileContent sampleResult) sampleResult.translated_text ∧
    strContains (downloadFileContent sampleResult)
      (toString sampleResult.original_text_analysis.words_count) ∧
    strContains (downloadFileContent sampleResult)
      (toString sampleResult.translated_text_analysis.words_count) ∧
    (∀ info ∈ sampleResult.original_text_analysis.words_info,
      strContains (downloadFileContent sampleResult) (wordInfoLine info)) ∧
    (∀ info ∈ sampleResult.translated_text_analysis.words_info,
      strContains (downloadFileContent sampleResult) (wordInfoLine info)) ∧
    ∃ u v : String, downloadFileContent sampleResult =
      u ++ (wordsInfoLines sampleResult.original_text_analysis.words_info ++
        (v ++ wordsInfoLines sampleResult.translated_text_analysis.words_info))) :=
  ⟨rfl, handleDownloadResults_spec sampleState sampleResult rfl⟩

/-- Claim C8: when the POST of `handleGenerateTree` fails (with a non-empty
selected sentence), the final state has `syntaxTree = none` and
`treeLoading = false`, and nothing else changed. -/
theorem handleGenerateTree_failure (s : AppState) (e : ApiError)
    (h : s.selectedSentence ≠ "") :
    (handleGenerateTree s (Except.error e)).1.syntaxTree = none ∧
    (handleGenerateTree s (Except.error e)).1.treeLoading = false ∧
    (handleGenerateTree s (Except.error e)).1 =
      { s with syntaxTree := none, treeLoading := false } := by
  unfold handleGenerateTree
  rw [if_neg h]
  exact ⟨rfl, rfl, rfl⟩

/-- Witness for claim C8, at `sampleState` and a network error. -/
theorem handleGenerateTree_failure_witness :
    sampleState.selectedSentence ≠ "" ∧
    ((handleGenerateTree sampleState (Except.error ApiError.network)).1.syntaxTree
        = none ∧
     (handleGenerateTree sampleState (Except.error ApiError.network)).1.treeLoading
        = false ∧
     (handleGenerateTree sampleState (Except.error ApiError.network)).1 =
       { sampleState with syntaxTree := none, treeLoading := false }) :=
  ⟨by decide, handleGenerateTree_failure sampleState ApiError.network (by decide)⟩

/-- Claim C9: on any input whose characters are all drawn from `.`, `!`, `?`
— including the empty string — the regex never matches, JavaScript `match`
returns `null`, and the `|| []` coercion makes `splitIntoSentences` return
the empty list. -/
theorem splitIntoSentences_all_delims (text : String)
    (h : ∀ c ∈ text.data, isDelim c = true) :
    splitIntoSentences text = [] := by
  unfold splitIntoSentences
  rw [matchLoop_all_delims _ _ h]
  rfl

/-- Witness for claim C9, at `".!?"` and at the empty string. -/
theorem splitIntoSentences_all_delims_witness :
    (∀ c ∈ (".!?" : String).data, isDelim c = true) ∧
    splitIntoSentences ".!?" = [] ∧
    splitIntoSentences "" = [] :=
  ⟨by decide,
   splitIntoSentences_all_delims ".!?" (by decide),
   splitIntoSentences_all_delims "" (by decide)⟩

/-- Claim C10: with an empty `selectedSentence`, `handleGenerateTree` returns
at the guard: it issues no request and leaves the whole state unchanged. -/
theorem handleGenerateTree_empty (s : AppState)
    (resp : Except ApiError (List Nat)) (h : s.selectedSentence = "") :
    handleGenerateTree s resp = (s, []) := by
  unfold handleGenerateTree
  rw [if_pos h]

/-- Witness for claim C10, at `sampleState` with its selection cleared. -/
theorem handleGenerateTree_empty_witness :
    ({ sampleState with selectedSentence := "" } : AppState).selectedSentence
        = "" ∧
    handleGenerateTree { sampleState with selectedSentence := "" }
        (Except.error ApiError.network) =
      ({ sampleState with selectedSentence := "" }, []) :=
  ⟨rfl, handleGenerateTree_empty _ _ rfl⟩

end LangTranslation
